import Mathlib

/-
Verification of the backlog-relay normalization/disambiguation layer.

The TypeScript sources are shallowly embedded: JavaScript strings are
modelled as lists of characters (`Str`), the object-literal status tables as
finite case analyses, the `try { ... } catch { ... }` probe-then-fallback
retrieval as explicit case analysis over an abstract remote (a partial map
from identifiers to raw platform records), and each adapter operation is
instrumented to also return the list of remote calls it issued. Fallible
JavaScript code (field access on possibly-undefined objects, remote calls)
is modelled with `Option`/`Except`.
-/

set_option autoImplicit false

namespace BacklogRelay

/-- JavaScript strings are modelled as lists of characters. -/
abbrev Str := List Char

/-- Converts a Lean string literal to the character-list model. -/
def str (s : String) : Str := s.data

/-- Character-wise lowercasing, the model of `String.prototype.toLowerCase`. -/
def toLower (s : Str) : Str := s.map Char.toLower

/-- Model of the whitespace class used by `String.prototype.trim`. -/
def wsp (c : Char) : Bool := c.isWhitespace

/-- Drops leading whitespace. -/
def trimLeft (s : Str) : Str := s.dropWhile wsp

/-- Drops trailing whitespace. -/
def trimRight (s : Str) : Str := (s.reverse.dropWhile wsp).reverse

/-- Model of `String.prototype.trim`: drop whitespace at both ends. -/
def trimBoth (s : Str) : Str := trimLeft (trimRight s)

/-- Splits a string at newline characters; the model of the line structure
used by the `m` (multiline) flag of a JavaScript regular expression. -/
def splitLines : Str → List Str
  | [] => [[]]
  | c :: cs =>
    if c = '\n' then [] :: splitLines cs
    else
      match splitLines cs with
      | [] => [[c]]
      | l :: ls => (c :: l) :: ls

/-- Boolean test that `pat` occurs at the very start of `s`. -/
def startsWithL : Str → Str → Bool
  | [], _ => true
  | _ :: _, [] => false
  | p :: ps, c :: cs => p == c && startsWithL ps cs

/-- Returns the remainder of `s` after the first (leftmost) occurrence of
`pat`, or `none` when `pat` does not occur in `s`.  This is the leftmost-match
rule of a JavaScript regular-expression search for a literal pattern. -/
def afterSub (pat : Str) : Str → Option Str
  | [] => none
  | c :: cs =>
    if startsWithL pat (c :: cs) then some ((c :: cs).drop pat.length)
    else afterSub pat cs

/-- Boolean substring containment, the model of `String.prototype.includes`. -/
def hasSub (pat s : Str) : Bool := (afterSub pat s).isSome

/-- The match a pattern of the shape `label(.+)$` produces on one line: the
remainder of the line after the first occurrence of `label`, provided that
remainder is nonempty (`.+` requires at least one character). -/
def lineCapture (label line : Str) : Option Str :=
  match afterSub label line with
  | some suf => if suf = [] then none else some suf
  | none => none

/-- First hit of `f` over a list of lines, in order. -/
def findFirst (f : Str → Option Str) : List Str → Option Str
  | [] => none
  | l :: ls =>
    match f l with
    | some r => some r
    | none => findFirst f ls

/-- The capture of the JavaScript regular expression ``/label(.+)$/m`` run
over `s`: the first line of `s`, in order, on which `label` occurs with a
nonempty remainder, yields that remainder. -/
def matchLabel (label s : Str) : Option Str :=
  findFirst (lineCapture label) (splitLines s)

/-- `pat` occurs somewhere inside `s` as a contiguous substring. -/
def occursIn (pat s : Str) : Prop := ∃ a b, s = a ++ pat ++ b

/-- Decimal rendering of a natural number, the model of `Number.toString`. -/
def natToStr (n : Nat) : Str := (Nat.repr n).data

/-! ### Basic lemmas about the string model -/

theorem splitLines_nil : splitLines [] = [[]] := rfl

theorem splitLines_newline (cs : Str) : splitLines ('\n' :: cs) = [] :: splitLines cs := by
  simp [splitLines]

theorem splitLines_ne_nil (s : Str) : splitLines s ≠ [] := by
  induction s with
  | nil => simp [splitLines]
  | cons c cs ih =>
    by_cases h : c = '\n'
    · simp [splitLines, h]
    · simp only [splitLines, if_neg h]
      cases hcs : splitLines cs with
      | nil => simp
      | cons l ls => simp

theorem splitLines_cons_of_ne (c : Char) (cs : Str) (h : c ≠ '\n') (l : Str) (ls : List Str)
    (hcs : splitLines cs = l :: ls) : splitLines (c :: cs) = (c :: l) :: ls := by
  simp [splitLines, h, hcs]

theorem splitLines_no_newline (a : Str) (h : '\n' ∉ a) : splitLines a = [a] := by
  induction a with
  | nil => rfl
  | cons c cs ih =>
    have hc : c ≠ '\n' := fun hh => h (hh ▸ List.mem_cons_self c cs)
    have hcs : '\n' ∉ cs := fun hh => h (List.mem_cons_of_mem c hh)
    exact splitLines_cons_of_ne c cs hc cs [] (ih hcs)

/-- Joins the line decompositions of two concatenated strings: the last line
of the first string fuses with the first line of the second. -/
def glue : List Str → List Str → List Str
  | [], bs => bs
  | [a], [] => [a]
  | [a], b :: bs => (a ++ b) :: bs
  | a :: a2 :: as, bs => a :: glue (a2 :: as) bs

theorem glue_single (a : Str) (b : Str) (bs : List Str) :
    glue [a] (b :: bs) = (a ++ b) :: bs := rfl

theorem glue_cons₂ (a a2 : Str) (as : List Str) (bs : List Str) :
    glue (a :: a2 :: as) bs = a :: glue (a2 :: as) bs := rfl

theorem splitLines_append (a b : Str) :
    splitLines (a ++ b) = glue (splitLines a) (splitLines b) := by
  induction a with
  | nil =>
    obtain ⟨l, ls, hb⟩ := List.exists_cons_of_ne_nil (splitLines_ne_nil b)
    simp [splitLines, hb, glue_single]
  | cons c cs ih =>
    by_cases h : c = '\n'
    · subst h
      rw [List.cons_append, splitLines_newline, splitLines_newline, ih]
      obtain ⟨l, ls, hcs⟩ := List.exists_cons_of_ne_nil (splitLines_ne_nil cs)
      rw [hcs, glue_cons₂]
    · obtain ⟨l', ls', hcs'⟩ := List.exists_cons_of_ne_nil (splitLines_ne_nil cs)
      have hglue : glue (l' :: ls') (splitLines b) = splitLines (cs ++ b) := by
        rw [← hcs', ← ih]
      obtain ⟨l, ls, hcs⟩ := List.exists_cons_of_ne_nil (splitLines_ne_nil (cs ++ b))
      rw [List.cons_append, splitLines_cons_of_ne c (cs ++ b) h l ls hcs,
        splitLines_cons_of_ne c cs h l' ls' hcs']
      rw [hcs] at hglue
      cases ls' with
      | nil =>
        obtain ⟨lb, lsb, hb⟩ := List.exists_cons_of_ne_nil (splitLines_ne_nil b)
        rw [hb, glue_single] at hglue ⊢
        rw [List.cons.injEq] at hglue
        rw [← hglue.1, ← hglue.2, List.cons_append]
      | cons l2 ls2 =>
        rw [glue_cons₂] at hglue ⊢
        rw [List.cons.injEq] at hglue
        rw [← hglue.1, ← hglue.2]

theorem glue_empty_head (as : List Str) (h : as ≠ []) (rest : List Str) :
    glue as ([] :: rest) = as ++ rest := by
  induction as with
  | nil => exact absurd rfl h
  | cons a as' ih =>
    cases as' with
    | nil => simp [glue_single]
    | cons a2 as2 =>
      rw [glue_cons₂, ih (by simp)]
      simp

theorem splitLines_line_append (a : Str) (h : '\n' ∉ a) (b : Str) :
    splitLines (a ++ '\n' :: b) = a :: splitLines b := by
  rw [splitLines_append, splitLines_no_newline a h, splitLines_newline, glue_single,
    List.append_nil]

theorem splitLines_newline_append (a : Str) (b : Str) :
    splitLines (a ++ '\n' :: b) = splitLines a ++ splitLines b := by
  rw [splitLines_append, splitLines_newline, glue_empty_head _ (splitLines_ne_nil a)]

/-! ### Occurrence lemmas -/

theorem occursIn_trans {p m s : Str} (h1 : occursIn p m) (h2 : occursIn m s) : occursIn p s := by
  obtain ⟨a, b, rfl⟩ := h2
  obtain ⟨a', b', rfl⟩ := h1
  exact ⟨a ++ a', b' ++ b, by simp⟩

theorem occursIn_of_startsWithL {pat s : Str} (h : startsWithL pat s = true) :
    ∃ t, s = pat ++ t := by
  induction pat generalizing s with
  | nil => exact ⟨s, rfl⟩
  | cons p ps ih =>
    cases s with
    | nil => simp [startsWithL] at h
    | cons c cs =>
      simp only [startsWithL, Bool.and_eq_true, beq_iff_eq] at h
      obtain ⟨t, ht⟩ := ih h.2
      exact ⟨t, by rw [h.1, List.cons_append, ht]⟩

theorem startsWithL_self_append (pat t : Str) : startsWithL pat (pat ++ t) = true := by
  induction pat with
  | nil => rfl
  | cons p ps ih => simp [startsWithL, ih]

theorem afterSub_self_append (c : Char) (ps t : Str) :
    afterSub (c :: ps) ((c :: ps) ++ t) = some t := by
  rw [List.cons_append, afterSub, ← List.cons_append,
    if_pos (startsWithL_self_append (c :: ps) t)]
  rw [List.drop_left]

theorem occursIn_of_afterSub {pat s suf : Str} (h : afterSub pat s = some suf) :
    ∃ a, s = a ++ pat ++ suf := by
  induction s with
  | nil => simp [afterSub] at h
  | cons c cs ih =>
    rw [afterSub] at h
    by_cases hp : startsWithL pat (c :: cs) = true
    · rw [if_pos hp] at h
      obtain ⟨t, ht⟩ := occursIn_of_startsWithL hp
      rw [ht, List.drop_left] at h
      obtain rfl := Option.some.injEq _ _ ▸ h
      exact ⟨[], by simpa using ht⟩
    · rw [if_neg hp] at h
      obtain ⟨a, ha⟩ := ih h
      exact ⟨c :: a, by rw [ha]; rfl⟩

theorem afterSub_ne_none {c : Char} {p s : Str} (h : occursIn (c :: p) s) :
    afterSub (c :: p) s ≠ none := by
  induction s with
  | nil =>
    obtain ⟨a, b, hab⟩ := h
    exact absurd hab.symm (by simp)
  | cons x cs ih =>
    rw [afterSub]
    by_cases hp : startsWithL (c :: p) (x :: cs) = true
    · rw [if_pos hp]; simp
    · rw [if_neg hp]
      apply ih
      obtain ⟨a, b, hab⟩ := h
      cases a with
      | nil =>
        exfalso
        apply hp
        simp only [List.nil_append] at hab
        rw [hab]
        exact startsWithL_self_append (c :: p) b
      | cons y a' =>
        rw [List.cons_append, List.cons_append, List.cons.injEq] at hab
        exact ⟨a', b, hab.2⟩

theorem afterSub_eq_none {c : Char} {p s : Str} (h : ¬ occursIn (c :: p) s) :
    afterSub (c :: p) s = none := by
  cases hs : afterSub (c :: p) s with
  | none => rfl
  | some suf =>
    obtain ⟨a, ha⟩ := occursIn_of_afterSub hs
    exact absurd ⟨a, suf, ha⟩ h

theorem lineCapture_eq_none {c : Char} {p line : Str} (h : ¬ occursIn (c :: p) line) :
    lineCapture (c :: p) line = none := by
  rw [lineCapture, afterSub_eq_none h]

theorem lineCapture_nil (label : Str) : lineCapture label [] = none := rfl

theorem lineCapture_label (c : Char) (ps v : Str) (hv : v ≠ []) :
    lineCapture (c :: ps) ((c :: ps) ++ v) = some v := by
  rw [lineCapture, afterSub_self_append]
  simp [hv]

/-- Characters of an occurrence either sit inside the left part of a
concatenation (witnessed by the head character) or the occurrence lies
entirely in the right part. -/
theorem occursIn_append_split {c : Char} {p a b : Str} (h : occursIn (c :: p) (a ++ b)) :
    c ∈ a ∨ occursIn (c :: p) b := by
  obtain ⟨u, v, huv⟩ := h
  induction a generalizing u with
  | nil =>
    right
    simp only [List.nil_append] at huv
    exact ⟨u, v, huv⟩
  | cons x a' ih =>
    cases u with
    | nil =>
      left
      simp only [List.nil_append, List.cons_append, List.cons.injEq] at huv
      rw [huv.1]
      exact List.mem_cons_self c a'
    | cons y u' =>
      rw [List.cons_append, List.cons_append, List.cons_append, List.cons.injEq] at huv
      rcases ih u' huv.2 with hc | ho
      · exact Or.inl (List.mem_cons_of_mem x hc)
      · exact Or.inr ho

/-! ### Lines are substrings of the whole text -/

theorem splitLines_head_prefix (s : Str) :
    ∀ h t, splitLines s = h :: t → ∃ r, s = h ++ r := by
  induction s with
  | nil => intro h t hh; rw [splitLines_nil, List.cons.injEq] at hh; exact ⟨[], by simp [← hh.1]⟩
  | cons c cs ih =>
    intro h t hh
    by_cases hc : c = '\n'
    · subst hc
      rw [splitLines_newline, List.cons.injEq] at hh
      exact ⟨'\n' :: cs, by rw [← hh.1]; rfl⟩
    · obtain ⟨l, ls, hcs⟩ := List.exists_cons_of_ne_nil (splitLines_ne_nil cs)
      rw [splitLines_cons_of_ne c cs hc l ls hcs, List.cons.injEq] at hh
      obtain ⟨r, hr⟩ := ih l ls hcs
      exact ⟨r, by rw [← hh.1, List.cons_append, ← hr]⟩

theorem mem_splitLines_occursIn {l : Str} {s : Str} (h : l ∈ splitLines s) : occursIn l s := by
  induction s with
  | nil =>
    rw [splitLines_nil, List.mem_singleton] at h
    exact ⟨[], [], by simp [h]⟩
  | cons c cs ih =>
    by_cases hc : c = '\n'
    · subst hc
      rw [splitLines_newline, List.mem_cons] at h
      rcases h with rfl | h
      · exact ⟨[], '\n' :: cs, rfl⟩
      · obtain ⟨a, b, hab⟩ := ih h
        exact ⟨'\n' :: a, b, by rw [hab]; rfl⟩
    · obtain ⟨hl, ls, hcs⟩ := List.exists_cons_of_ne_nil (splitLines_ne_nil cs)
      rw [splitLines_cons_of_ne c cs hc hl ls hcs, List.mem_cons] at h
      rcases h with rfl | h
      · obtain ⟨r, hr⟩ := splitLines_head_prefix cs hl ls hcs
        exact ⟨[], r, by rw [hr]; rfl⟩
      · obtain ⟨a, b, hab⟩ := ih (hcs ▸ List.mem_cons_of_mem hl h)
        exact ⟨c :: a, b, by rw [hab]; rfl⟩

/-! ### findFirst lemmas -/

theorem findFirst_append (f : Str → Option Str) (l1 l2 : List Str) :
    findFirst f (l1 ++ l2) =
      match findFirst f l1 with
      | some r => some r
      | none => findFirst f l2 := by
  induction l1 with
  | nil => simp [findFirst]
  | cons a as ih =>
    rw [List.cons_append, findFirst, findFirst]
    cases f a with
    | some r => rfl
    | none => exact ih

theorem findFirst_eq_none (f : Str → Option Str) (L : List Str)
    (h : ∀ l ∈ L, f l = none) : findFirst f L = none := by
  induction L with
  | nil => rfl
  | cons a as ih =>
    rw [findFirst, h a (List.mem_cons_self a as)]
    exact ih fun l hl => h l (List.mem_cons_of_mem a hl)

/-! ### Trim lemmas -/

theorem trimLeft_suffix (s : Str) : ∃ a, s = a ++ trimLeft s := by
  simp only [trimLeft]
  induction s with
  | nil => exact ⟨[], rfl⟩
  | cons c cs ih =>
    by_cases h : wsp c = true
    · obtain ⟨a, ha⟩ := ih
      refine ⟨c :: a, ?_⟩
      rw [List.dropWhile_cons, if_pos h, List.cons_append, ← ha]
    · exact ⟨[], by rw [List.dropWhile_cons, if_neg h, List.nil_append]⟩

theorem trimLeft_cons_ws {c : Char} (h : wsp c = true) (s : Str) :
    trimLeft (c :: s) = trimLeft s := by
  simp only [trimLeft, List.dropWhile_cons, h, if_true]

theorem trimLeft_cons_not_ws {c : Char} (h : ¬ wsp c = true) (s : Str) :
    trimLeft (c :: s) = c :: s := by
  simp only [trimLeft, List.dropWhile_cons, if_neg h]

theorem trimLeft_append (a b : Str) :
    trimLeft (a ++ b) = if trimLeft a = [] then trimLeft b else trimLeft a ++ b := by
  rw [trimLeft, trimLeft, trimLeft, List.dropWhile_append]
  by_cases h : a.dropWhile wsp = []
  · rw [if_pos (by simp [h]), if_pos h]
  · rw [if_neg (by simp [h]), if_neg h]

theorem trimRight_append_keep (a b : Str) (hc : ∃ c ∈ b, wsp c = false) :
    trimRight (a ++ b) = a ++ trimRight b := by
  have hb : b.reverse.dropWhile wsp ≠ [] := by
    rw [Ne, List.dropWhile_eq_nil_iff]
    intro hall
    obtain ⟨c, hcb, hcw⟩ := hc
    have := hall c (List.mem_reverse.mpr hcb)
    rw [hcw] at this
    exact Bool.false_ne_true this
  rw [trimRight, trimRight, List.reverse_append, List.dropWhile_append,
    if_neg (by simpa using hb), List.reverse_append, List.reverse_reverse]

/-! ### Shared ticket model (src/types/tickets.d.ts, src/api/base.ts) -/

/-- An `{id, name}` identity pair. -/
structure Person where
  id : Str
  name : Str
deriving DecidableEq

/-- The fields shared by both `StandardTicket` variants (`BaseTicket`). -/
structure BaseTicketData where
  id : Str
  title : Str
  description : Str
  createdAt : Str
  updatedAt : Str
  status : Str
  author : Person
  assignee : Option Person
deriving DecidableEq

/-- `StandardTicket = StandardIssue | StandardPullRequest`.  The `state`
field is kept as a raw string because the TypeScript sources populate it with
an unchecked cast from the platform payload. -/
inductive StandardTicket where
  | issue (base : BaseTicketData)
  | pullRequest (base : BaseTicketData) (sourceBranch targetBranch state : Str)
deriving DecidableEq

/-- The `status` field of either variant. -/
def StandardTicket.status : StandardTicket → Str
  | .issue b => b.status
  | .pullRequest b _ _ _ => b.status

/-- The `sourceBranch` field, present only on the review-request variant. -/
def StandardTicket.sourceBranch? : StandardTicket → Option Str
  | .issue _ => none
  | .pullRequest _ sb _ _ => some sb

/-- The `targetBranch` field, present only on the review-request variant. -/
def StandardTicket.targetBranch? : StandardTicket → Option Str
  | .issue _ => none
  | .pullRequest _ _ tb _ => some tb

/-- The `state` field, present only on the review-request variant. -/
def StandardTicket.prState? : StandardTicket → Option Str
  | .issue _ => none
  | .pullRequest _ _ _ st => some st

/-- `TicketComment` from src/api/base.ts. -/
structure TicketComment where
  id : Str
  content : Str
  author : Person
  createdAt : Str
deriving DecidableEq

/-- `CreateTicketOptions` with every field optional, the shape of the
`Partial<CreateTicketOptions>` update argument. -/
structure UpdateTicketOptions where
  title : Option Str
  description : Option Str
  assigneeId : Option Str
  labels : Option (List Str)
deriving DecidableEq

/-- The optional `{status?, assigneeId?}` filter of `getTickets`. -/
structure GetTicketsOptions where
  status : Option Str
  assigneeId : Option Str
deriving DecidableEq

/-- Errors surfaced by adapter operations. -/
inductive TicketError where
  | notFound
  | transportFailure
  | typeError
deriving DecidableEq

/-- The shared status vocabulary of the specification (issue statuses plus
the ITSM lifecycle names and the three review-request states). -/
def sharedVocab : List Str :=
  [str "open", str "closed", str "merged", str "new", str "in_progress",
   str "on_hold", str "resolved", str "pending"]

/-- The three-way review-request state vocabulary. -/
def prStateVocab : List Str := [str "open", str "closed", str "merged"]

/-! ### ServiceNow status tables (src/api/servicenow.ts) -/

namespace ServiceNowClient

/-- `normalizeStatus`: the numeric-state table `{"1"→new, "2"→in_progress,
"3"→on_hold, "6"→resolved, "7"→closed, "-5"→pending}` with unknown codes
passed through unchanged (`stateMap[status] || status`). -/
def normalizeStatus (status : Str) : Str :=
  if status = str "1" then str "new"
  else if status = str "2" then str "in_progress"
  else if status = str "3" then str "on_hold"
  else if status = str "6" then str "resolved"
  else if status = str "7" then str "closed"
  else if status = str "-5" then str "pending"
  else status

/-- `mapStatusToServiceNow`: reverse table on the lowercased input with the
default `"1"` (`stateMap[status.toLowerCase()] || "1"`). -/
def mapStatusToServiceNow (status : Str) : Str :=
  let s := toLower status
  if s = str "new" then str "1"
  else if s = str "in_progress" then str "2"
  else if s = str "on_hold" then str "3"
  else if s = str "resolved" then str "6"
  else if s = str "closed" then str "7"
  else if s = str "pending" then str "-5"
  else str "1"

/-- `mapServiceNowStateToPRState`: the switch sending codes 3, 1, 2 and -5 to
`open`, 6 to `merged`, 7 to `closed`, and everything else to `open`. -/
def mapServiceNowStateToPRState (state : Str) : Str :=
  if state = str "3" ∨ state = str "1" ∨ state = str "2" ∨ state = str "-5" then str "open"
  else if state = str "6" then str "merged"
  else if state = str "7" then str "closed"
  else str "open"

end ServiceNowClient

/-! ### Jira status heuristic (src/api/jira.ts) -/

namespace JiraClient

/-- `mapJiraStatusToPRState`: keyword-substring heuristic on the lowercased
status name. -/
def mapJiraStatusToPRState (status : Str) : Str :=
  let lowerStatus := toLower status
  if hasSub (str "done") lowerStatus || hasSub (str "merged") lowerStatus then str "merged"
  else if hasSub (str "closed") lowerStatus || hasSub (str "rejected") lowerStatus then
    str "closed"
  else str "open"

end JiraClient

/-! ### GitLab status tables (src/api/gitlab.ts) -/

namespace GitLabClient

/-- `mapStatus`: reverse filter mapping; a missing or falsy (empty) status
and every unrecognized value produce `undefined` (no filter). -/
def mapStatus (status : Option Str) : Option Str :=
  match status with
  | none => none
  | some s =>
    if s = [] then none
    else if toLower s = str "open" then some (str "opened")
    else if toLower s = str "closed" then some (str "closed")
    else none

/-- `normalizeStatus`: `"opened"` (case-insensitively) becomes `"open"`;
every other value is returned unchanged. -/
def normalizeStatus (status : Str) : Str :=
  if toLower status = str "opened" then str "open" else status

end GitLabClient

/-! ### The shared review-request description template

Both `JiraClient.createReviewRequest` and `ServiceNowClient.createReviewRequest`
build the record description from the same template literal:
newline, the user description, a blank line, the two branch label lines, a
reviewers line, then `.trim()`. -/

/-- `options.reviewers?.join(", ") || "None assigned"`. -/
def reviewersText (reviewers : Option (List Str)) : Str :=
  match reviewers with
  | some (x :: xs) => List.intercalate (str ", ") (x :: xs)
  | _ => str "None assigned"

/-- The trimmed description template of `createReviewRequest` on the Jira and
ServiceNow adapters. -/
def reviewDescription (description sourceBranch targetBranch : Str)
    (reviewers : Option (List Str)) : Str :=
  trimBoth (str "\n" ++ description ++ str "\n\nSource Branch: " ++ sourceBranch
    ++ str "\nTarget Branch: " ++ targetBranch ++ str "\nReviewers: "
    ++ reviewersText reviewers ++ str "\n    ")

/-! ### Jira raw records and normalization (src/api/jira.ts) -/

/-- A Jira account as read by `normalizeTicket` and `normalizeComment`. -/
structure JiraUser where
  accountId : Str
  displayName : Str
deriving DecidableEq

/-- The `fields` object of a Jira issue payload. -/
structure JiraFields where
  summary : Str
  description : Option Str
  statusName : Str
  created : Str
  updated : Str
  reporter : JiraUser
  assignee : Option JiraUser
  issuetypeName : Str
deriving DecidableEq

/-- A raw Jira issue payload (`key` plus `fields`). -/
structure JiraRaw where
  key : Str
  fields : JiraFields
deriving DecidableEq

namespace JiraClient

/-- `JiraClient.normalizeTicket`: lowercases the status name, treats the
`Review` issue type as a review request and extracts the branch fields from
the description with the two label patterns, falling back to `"unknown"`. -/
def normalizeTicket (platformTicket : JiraRaw) : StandardTicket :=
  let descr := platformTicket.fields.description.getD []
  let base : BaseTicketData :=
    { id := platformTicket.key
      title := platformTicket.fields.summary
      description := descr
      createdAt := platformTicket.fields.created
      updatedAt := platformTicket.fields.updated
      status := toLower platformTicket.fields.statusName
      author := ⟨platformTicket.fields.reporter.accountId,
        platformTicket.fields.reporter.displayName⟩
      assignee := platformTicket.fields.assignee.map fun a =>
        ⟨a.accountId, a.displayName⟩ }
  if platformTicket.fields.issuetypeName = str "Review" then
    .pullRequest base
      ((matchLabel (str "Source Branch: ") descr).getD (str "unknown"))
      ((matchLabel (str "Target Branch: ") descr).getD (str "unknown"))
      (mapJiraStatusToPRState platformTicket.fields.statusName)
  else
    .issue base

/-- The JQL string built by `JiraClient.getTickets`: truthy filters are
appended as quoted equality terms, so an unrecognized status value is passed
through into the query verbatim. -/
def buildJql (projectKey : Str) (options : GetTicketsOptions) : Str :=
  let jql := str "project = " ++ projectKey
  let jql := match options.status with
    | some s => if s = [] then jql else jql ++ str " AND status = \"" ++ s ++ str "\""
    | none => jql
  match options.assigneeId with
  | some a => if a = [] then jql else jql ++ str " AND assignee = \"" ++ a ++ str "\""
  | none => jql

end JiraClient

/-! ### ServiceNow raw records and normalization (src/api/servicenow.ts) -/

/-- A ServiceNow reference field (`{value, display_value}`). -/
structure SNRef where
  value : Str
  display_value : Str
deriving DecidableEq

/-- A raw ServiceNow table record as read by the adapter. -/
structure SNRaw where
  sys_id : Str
  short_description : Str
  description : Option Str
  state : Str
  sys_class_name : Str
  category : Option Str
  sys_created_by : Str
  sys_created_on : Str
  sys_updated_on : Str
  sys_updated_by : Str
  assigned_to : Option SNRef
  work_notes : Option Str
deriving DecidableEq

namespace ServiceNowClient

/-- `ServiceNowClient.normalizeTicket`: maps the numeric state through
`normalizeStatus`, and treats a `change_request` record with category
`Code Review` as a review request, extracting the branch fields from the
description with the two label patterns. -/
def normalizeTicket (platformTicket : SNRaw) : StandardTicket :=
  let descr := platformTicket.description.getD []
  let base : BaseTicketData :=
    { id := platformTicket.sys_id
      title := platformTicket.short_description
      description := descr
      createdAt := platformTicket.sys_created_on
      updatedAt := platformTicket.sys_updated_on
      status := normalizeStatus platformTicket.state
      author := ⟨platformTicket.sys_created_by, platformTicket.sys_created_by⟩
      assignee := platformTicket.assigned_to.map fun a =>
        ⟨a.value, a.display_value⟩ }
  if platformTicket.sys_class_name = str "change_request" ∧
      platformTicket.category = some (str "Code Review") then
    .pullRequest base
      ((matchLabel (str "Source Branch: ") descr).getD (str "unknown"))
      ((matchLabel (str "Target Branch: ") descr).getD (str "unknown"))
      (mapServiceNowStateToPRState platformTicket.state)
  else
    .issue base

/-- `ServiceNowClient.normalizeComment` applied to the PATCH response. -/
def normalizeComment (platformComment : SNRaw) : TicketComment :=
  { id := platformComment.sys_id
    content := platformComment.work_notes.getD []
    author := ⟨platformComment.sys_updated_by, platformComment.sys_updated_by⟩
    createdAt := platformComment.sys_updated_on }

/-- The `sysparm_query` string built by `ServiceNowClient.getTickets`:
a truthy status filter is translated through `mapStatusToServiceNow` (so an
unrecognized value becomes the default code `"1"`), the trailing caret is
sliced off, and a nonempty query gains the `?sysparm_query=` prefix. -/
def buildQuery (options : GetTicketsOptions) : Str :=
  let q := match options.status with
    | some s => if s = [] then [] else str "state=" ++ mapStatusToServiceNow s ++ str "^"
    | none => []
  let q := q ++ (match options.assigneeId with
    | some a => if a = [] then [] else str "assigned_to=" ++ a ++ str "^"
    | none => [])
  if q = [] then [] else str "?sysparm_query=" ++ q.dropLast

end ServiceNowClient

/-! ### GitHub raw records and normalization (src/api/github.ts) -/

/-- A GitHub user object. -/
structure GHUser where
  id : Nat
  login : Str
deriving DecidableEq

/-- A branch reference (`{ref}`) of a pull-request payload. -/
structure GHRef where
  ref : Str
deriving DecidableEq

/-- A raw GitHub issue or pull-request payload.  `hasPullRequestMarker`
models the `"pull_request" in platformTicket` membership test; `head` and
`base` are optional because the issues-list endpoint returns pull requests
without them. -/
structure GHRaw where
  number : Nat
  title : Str
  body : Option Str
  created_at : Str
  updated_at : Str
  state : Str
  user : GHUser
  assignee : Option GHUser
  hasPullRequestMarker : Bool
  head : Option GHRef
  base : Option GHRef
deriving DecidableEq

namespace GitHubClient

/-- `GitHubClient.normalizeTicket`: for a record carrying the pull-request
marker it reads `head.ref` and `base.ref` unconditionally; reading a field of
an absent object is a JavaScript `TypeError`, modelled as `Except.error`. -/
def normalizeTicket (platformTicket : GHRaw) : Except TicketError StandardTicket :=
  let base : BaseTicketData :=
    { id := natToStr platformTicket.number
      title := platformTicket.title
      description := platformTicket.body.getD []
      createdAt := platformTicket.created_at
      updatedAt := platformTicket.updated_at
      status := platformTicket.state
      author := ⟨natToStr platformTicket.user.id, platformTicket.user.login⟩
      assignee := platformTicket.assignee.map fun a => ⟨natToStr a.id, a.login⟩ }
  if platformTicket.hasPullRequestMarker then
    match platformTicket.head, platformTicket.base with
    | some h, some b => .ok (.pullRequest base h.ref b.ref platformTicket.state)
    | _, _ => .error .typeError
  else
    .ok (.issue base)

/-- The `state` parameter sent by `GitHubClient.getTickets`:
`(options?.status as ...) || "open"` passes any truthy value through. -/
def listState (options : GetTicketsOptions) : Str :=
  match options.status with
  | some s => if s = [] then str "open" else s
  | none => str "open"

end GitHubClient

/-! ### GitLab raw records and normalization (src/api/gitlab.ts) -/

/-- A GitLab user object. -/
structure GLUser where
  id : Nat
  username : Str
deriving DecidableEq

/-- A raw GitLab issue or merge-request payload.  The presence of
`source_branch` is the `"source_branch" in platformTicket` membership test. -/
structure GLRaw where
  iid : Nat
  title : Str
  description : Option Str
  created_at : Str
  updated_at : Str
  state : Str
  author : GLUser
  assignee : Option GLUser
  source_branch : Option Str
  target_branch : Option Str
deriving DecidableEq

/-- A raw GitLab note payload. -/
structure GLNote where
  id : Nat
  body : Str
  author : GLUser
  created_at : Str
deriving DecidableEq

namespace GitLabClient

/-- `GitLabClient.normalizeTicket`: a record carrying `source_branch` is a
merge request; the `state` string is passed through by an unchecked cast. -/
def normalizeTicket (platformTicket : GLRaw) : StandardTicket :=
  let base : BaseTicketData :=
    { id := natToStr platformTicket.iid
      title := platformTicket.title
      description := platformTicket.description.getD []
      createdAt := platformTicket.created_at
      updatedAt := platformTicket.updated_at
      status := normalizeStatus platformTicket.state
      author := ⟨natToStr platformTicket.author.id, platformTicket.author.username⟩
      assignee := platformTicket.assignee.map fun a => ⟨natToStr a.id, a.username⟩ }
  match platformTicket.source_branch with
  | some sb =>
    .pullRequest base sb (platformTicket.target_branch.getD []) platformTicket.state
  | none => .issue base

/-- `GitLabClient.normalizeComment`. -/
def normalizeComment (platformComment : GLNote) : TicketComment :=
  { id := natToStr platformComment.id
    content := platformComment.body
    author := ⟨natToStr platformComment.author.id, platformComment.author.username⟩
    createdAt := platformComment.created_at }

end GitLabClient

/-! ### Instrumented adapter operations

Each remote endpoint is an abstract partial map; `none` models a rejected
call (`catch`-able failure such as a remote not-found).  Every operation also
returns the list of remote calls it issued, in order, so the
probe-then-fallback protocol can be stated exactly. -/

/-- The body of a ServiceNow PATCH request. -/
structure SNPatchPayload where
  short_description : Option Str
  description : Option Str
  assigned_to : Option Str
  category : Option Str
  work_notes : Option Str
deriving DecidableEq

/-- The remote calls `ServiceNowClient` can issue. -/
inductive SNCall where
  | getChange (id : Str)
  | getIncident (id : Str)
  | patchChange (id : Str) (payload : SNPatchPayload)
  | patchIncident (id : Str) (payload : SNPatchPayload)
deriving DecidableEq

/-- The abstract ServiceNow transport. -/
structure SNRemote where
  changeTable : Str → Option SNRaw
  incidentTable : Str → Option SNRaw
  patchChange : Str → SNPatchPayload → Option SNRaw
  patchIncident : Str → SNPatchPayload → Option SNRaw

namespace ServiceNowClient

/-- `ServiceNowClient.getTicket`: try the change-request table, and on any
failure retry the incident table. -/
def getTicket (r : SNRemote) (ticketId : Str) :
    Except TicketError StandardTicket × List SNCall :=
  match r.changeTable ticketId with
  | some rec => (.ok (normalizeTicket rec), [.getChange ticketId])
  | none =>
    match r.incidentTable ticketId with
    | some rec => (.ok (normalizeTicket rec), [.getChange ticketId, .getIncident ticketId])
    | none => (.error .notFound, [.getChange ticketId, .getIncident ticketId])

/-- The PATCH body `ServiceNowClient.updateTicket` builds: only truthy fields
are included, and the category comes from the first label when the label list
is nonempty. -/
def buildUpdatePayload (updates : UpdateTicketOptions) : SNPatchPayload :=
  { short_description := match updates.title with
      | some t => if t = [] then none else some t
      | none => none
    description := match updates.description with
      | some d => if d = [] then none else some d
      | none => none
    assigned_to := match updates.assigneeId with
      | some a => if a = [] then none else some a
      | none => none
    category := match updates.labels with
      | some (l :: _) => some l
      | _ => none
    work_notes := none }

/-- `ServiceNowClient.updateTicket`: try PATCHing the change-request table,
and on any failure retry the incident table. -/
def updateTicket (r : SNRemote) (ticketId : Str) (updates : UpdateTicketOptions) :
    Except TicketError StandardTicket × List SNCall :=
  let payload := buildUpdatePayload updates
  match r.patchChange ticketId payload with
  | some rec => (.ok (normalizeTicket rec), [.patchChange ticketId payload])
  | none =>
    match r.patchIncident ticketId payload with
    | some rec =>
      (.ok (normalizeTicket rec),
       [.patchChange ticketId payload, .patchIncident ticketId payload])
    | none =>
      (.error .transportFailure,
       [.patchChange ticketId payload, .patchIncident ticketId payload])

/-- The work-note PATCH body of `ServiceNowClient.addComment`. -/
def commentPayload (comment : Str) : SNPatchPayload :=
  { short_description := none, description := none, assigned_to := none,
    category := none, work_notes := some comment }

/-- `ServiceNowClient.addComment`: a work-note PATCH with the same
probe-then-fallback ordering. -/
def addComment (r : SNRemote) (ticketId : Str) (comment : Str) :
    Except TicketError TicketComment × List SNCall :=
  let payload := commentPayload comment
  match r.patchChange ticketId payload with
  | some rec => (.ok (normalizeComment rec), [.patchChange ticketId payload])
  | none =>
    match r.patchIncident ticketId payload with
    | some rec =>
      (.ok (normalizeComment rec),
       [.patchChange ticketId payload, .patchIncident ticketId payload])
    | none =>
      (.error .transportFailure,
       [.patchChange ticketId payload, .patchIncident ticketId payload])

end ServiceNowClient

/-- The edit payload `GitLabClient.updateTicket` sends (fields passed through
directly; only `assigneeIds` is truthiness-guarded, and labels are joined). -/
structure GLEditPayload where
  title : Option Str
  description : Option Str
  assigneeIds : Option (List Str)
  labels : Option Str
deriving DecidableEq

/-- The remote calls `GitLabClient` can issue. -/
inductive GLCall where
  | mrShow (id : Str)
  | issueShow (id : Str)
  | issueEdit (id : Str) (payload : GLEditPayload)
  | mrNoteCreate (id : Str) (body : Str)
  | issueNoteCreate (id : Str) (body : Str)
deriving DecidableEq

/-- The abstract GitLab transport. -/
structure GLRemote where
  mergeRequests : Str → Option GLRaw
  issues : Str → Option GLRaw
  issueEdit : Str → GLEditPayload → Option GLRaw
  mrNotes : Str → Str → Option GLNote
  issueNotes : Str → Str → Option GLNote

namespace GitLabClient

/-- `GitLabClient.getTicket`: try the merge-request endpoint, and on any
failure retry the issue endpoint. -/
def getTicket (r : GLRemote) (ticketId : Str) :
    Except TicketError StandardTicket × List GLCall :=
  match r.mergeRequests ticketId with
  | some mr => (.ok (normalizeTicket mr), [.mrShow ticketId])
  | none =>
    match r.issues ticketId with
    | some issue => (.ok (normalizeTicket issue), [.mrShow ticketId, .issueShow ticketId])
    | none => (.error .notFound, [.mrShow ticketId, .issueShow ticketId])

/-- The body of the one `Issues.edit` call `GitLabClient.updateTicket` makes. -/
def buildEditPayload (updates : UpdateTicketOptions) : GLEditPayload :=
  { title := updates.title
    description := updates.description
    assigneeIds := match updates.assigneeId with
      | some a => if a = [] then none else some [a]
      | none => none
    labels := updates.labels.map (List.intercalate (str ",")) }

/-- `GitLabClient.updateTicket`: a single `Issues.edit` call with no
try-catch — there is no merge-request probe and no fallback. -/
def updateTicket (r : GLRemote) (ticketId : Str) (updates : UpdateTicketOptions) :
    Except TicketError StandardTicket × List GLCall :=
  let payload := buildEditPayload updates
  match r.issueEdit ticketId payload with
  | some issue => (.ok (normalizeTicket issue), [.issueEdit ticketId payload])
  | none => (.error .transportFailure, [.issueEdit ticketId payload])

/-- `GitLabClient.addComment`: try creating a merge-request note, and on any
failure retry as an issue note. -/
def addComment (r : GLRemote) (ticketId : Str) (comment : Str) :
    Except TicketError TicketComment × List GLCall :=
  match r.mrNotes ticketId comment with
  | some note => (.ok (normalizeComment note), [.mrNoteCreate ticketId comment])
  | none =>
    match r.issueNotes ticketId comment with
    | some note =>
      (.ok (normalizeComment note),
       [.mrNoteCreate ticketId comment, .issueNoteCreate ticketId comment])
    | none =>
      (.error .transportFailure,
       [.mrNoteCreate ticketId comment, .issueNoteCreate ticketId comment])

end GitLabClient

/-- The remote calls `GitHubClient.getTicket` can issue. -/
inductive GHCall where
  | pullsGet (id : Str)
  | issuesGet (id : Str)
deriving DecidableEq

/-- The abstract GitHub transport. -/
structure GHRemote where
  pulls : Str → Option GHRaw
  issues : Str → Option GHRaw
  issuesList : Str → Option Str → List GHRaw

namespace GitHubClient

/-- `GitHubClient.getTicket`: try `pulls.get` (with normalization inside the
same try block), and on any failure retry `issues.get`; a failure of the
second call or of its normalization propagates. -/
def getTicket (r : GHRemote) (ticketId : Str) :
    Except TicketError StandardTicket × List GHCall :=
  match r.pulls ticketId with
  | some pr =>
    match normalizeTicket pr with
    | .ok t => (.ok t, [.pullsGet ticketId])
    | .error _ =>
      match r.issues ticketId with
      | some issue => (normalizeTicket issue, [.pullsGet ticketId, .issuesGet ticketId])
      | none => (.error .notFound, [.pullsGet ticketId, .issuesGet ticketId])
  | none =>
    match r.issues ticketId with
    | some issue => (normalizeTicket issue, [.pullsGet ticketId, .issuesGet ticketId])
    | none => (.error .notFound, [.pullsGet ticketId, .issuesGet ticketId])

/-- `GitHubClient.getTickets`: one issues-list call whose records are all
normalized; a normalization failure on any record fails the whole call. -/
def getTickets (r : GHRemote) (options : GetTicketsOptions) :
    Except TicketError (List StandardTicket) :=
  (r.issuesList (listState options) options.assigneeId).mapM normalizeTicket

end GitHubClient

/-! ### Dispatcher (src/api/factory.ts) -/

/-- A platform configuration as the dispatcher sees it: the `type` tag plus
presence of the payload keys its validation tests with the `in` operator. -/
structure RawConfig where
  type : Str
  hasApiToken : Bool
  hasProjectId : Bool
  hasEmail : Bool
  hasProjectKey : Bool
deriving DecidableEq

/-- The construction failures of `TicketClientFactory.createClient`. -/
inductive FactoryError where
  | invalidGitLab
  | invalidJira
  | unknownPlatform (tag : Str)
deriving DecidableEq

/-- A constructed adapter, bound to the configuration it was built from. -/
inductive BuiltClient where
  | github (config : RawConfig)
  | gitlab (config : RawConfig)
  | jira (config : RawConfig)
  | servicenow (config : RawConfig)
deriving DecidableEq

/-- The configuration a constructed adapter is bound to. -/
def BuiltClient.config : BuiltClient → RawConfig
  | .github c => c
  | .gitlab c => c
  | .jira c => c
  | .servicenow c => c

namespace TicketClientFactory

/-- `TicketClientFactory.createClient`: switch on the `type` tag, validating
key presence for the `gitlab` and `jira` cases only, and failing with an
error naming the tag on any unknown value. -/
def createClient (config : RawConfig) : Except FactoryError BuiltClient :=
  if config.type = str "github" then .ok (.github config)
  else if config.type = str "gitlab" then
    if config.hasApiToken && config.hasProjectId then .ok (.gitlab config)
    else .error .invalidGitLab
  else if config.type = str "jira" then
    if config.hasApiToken && config.hasEmail && config.hasProjectKey then .ok (.jira config)
    else .error .invalidJira
  else if config.type = str "servicenow" then .ok (.servicenow config)
  else .error (.unknownPlatform config.type)

end TicketClientFactory

/-! ### Derived lemmas used by the claim theorems -/

theorem findFirst_nil (f : Str → Option Str) : findFirst f [] = none := rfl

theorem findFirst_cons (f : Str → Option Str) (l : Str) (ls : List Str) :
    findFirst f (l :: ls) =
      match f l with
      | some r => some r
      | none => findFirst f ls := rfl

theorem afterSub_eq_none' {pat s : Str} (hp : pat ≠ []) (h : ¬ occursIn pat s) :
    afterSub pat s = none := by
  obtain ⟨c, p, rfl⟩ := List.exists_cons_of_ne_nil hp
  exact afterSub_eq_none h

theorem lineCapture_eq_none' {pat line : Str} (hp : pat ≠ []) (h : ¬ occursIn pat line) :
    lineCapture pat line = none := by
  rw [lineCapture, afterSub_eq_none' hp h]

theorem lineCapture_label' {pat : Str} (hp : pat ≠ []) (v : Str) (hv : v ≠ []) :
    lineCapture pat (pat ++ v) = some v := by
  obtain ⟨c, p, rfl⟩ := List.exists_cons_of_ne_nil hp
  exact lineCapture_label c p v hv

theorem hasSub_iff_occursIn {pat : Str} (hp : pat ≠ []) (s : Str) :
    hasSub pat s = true ↔ occursIn pat s := by
  obtain ⟨c, p, rfl⟩ := List.exists_cons_of_ne_nil hp
  constructor
  · intro h
    rw [hasSub, Option.isSome_iff_exists] at h
    obtain ⟨suf, hsuf⟩ := h
    obtain ⟨a, ha⟩ := occursIn_of_afterSub hsuf
    exact ⟨a, suf, ha⟩
  · intro h
    rw [hasSub, Option.isSome_iff_exists]
    cases hs : afterSub (c :: p) s with
    | none => exact absurd hs (afterSub_ne_none h)
    | some suf => exact ⟨suf, rfl⟩

theorem hasSub_eq_false {pat : Str} (hp : pat ≠ []) {s : Str} (h : ¬ occursIn pat s) :
    hasSub pat s = false := by
  rw [hasSub, afterSub_eq_none' hp h]
  rfl

theorem occursIn_of_trimLeft {pat s : Str} (h : occursIn pat (trimLeft s)) : occursIn pat s := by
  obtain ⟨a, ha⟩ := trimLeft_suffix s
  exact occursIn_trans h ⟨a, [], by rw [List.append_nil]; exact ha⟩

/-- A failing element makes `mapM` over `Except` fail. -/
theorem mapM_error_of_mem {α β : Type} (f : α → Except TicketError β) (l : List α)
    (h : ∃ x ∈ l, ∃ e, f x = Except.error e) : ∃ e, l.mapM f = Except.error e := by
  induction l with
  | nil =>
    obtain ⟨x, hx, _⟩ := h
    exact absurd hx (List.not_mem_nil x)
  | cons a t ih =>
    obtain ⟨x, hx, e, hfe⟩ := h
    rw [List.mem_cons] at hx
    cases hfa : f a with
    | error ea => exact ⟨ea, by rw [List.mapM_cons, hfa]; rfl⟩
    | ok b =>
      rcases hx with rfl | hx
      · rw [hfa] at hfe
        exact absurd hfe (by simp)
      · obtain ⟨e', he'⟩ := ih ⟨x, hx, e, hfe⟩
        exact ⟨e', by rw [List.mapM_cons, hfa, he']; rfl⟩

/-! ### Claim theorems -/

/-- C3: the ServiceNow forward status mapping is total and never throws: it
maps the six numeric lifecycle codes to their documented shared statuses and
every other input string to itself unchanged. -/
theorem C3_servicenow_status_total :
    ServiceNowClient.normalizeStatus (str "1") = str "new" ∧
    ServiceNowClient.normalizeStatus (str "2") = str "in_progress" ∧
    ServiceNowClient.normalizeStatus (str "3") = str "on_hold" ∧
    ServiceNowClient.normalizeStatus (str "6") = str "resolved" ∧
    ServiceNowClient.normalizeStatus (str "7") = str "closed" ∧
    ServiceNowClient.normalizeStatus (str "-5") = str "pending" ∧
    ∀ s : Str, s ∉ [str "1", str "2", str "3", str "6", str "7", str "-5"] →
      ServiceNowClient.normalizeStatus s = s := by
  refine ⟨rfl, rfl, rfl, rfl, rfl, rfl, ?_⟩
  intro s hs
  simp only [List.mem_cons, List.not_mem_nil, or_false, not_or] at hs
  obtain ⟨h1, h2, h3, h6, h7, h5⟩ := hs
  simp [ServiceNowClient.normalizeStatus, h1, h2, h3, h6, h7, h5]

/-- C3 witness: an unrecognized code passes through unchanged. -/
theorem C3_witness : ServiceNowClient.normalizeStatus (str "42") = str "42" :=
  C3_servicenow_status_total.2.2.2.2.2.2 (str "42") (by decide)

/-- C4: the Jira PR-state heuristic is case-insensitive substring matching:
`done` or `merged` in the lowercased name gives `merged`, otherwise `closed`
or `rejected` gives `closed`, otherwise `open`; in particular `Done` maps to
merged, `Rejected` to closed and `In Review` to open. -/
theorem C4_jira_pr_state_heuristic :
    (∀ s : Str,
      occursIn (str "done") (toLower s) ∨ occursIn (str "merged") (toLower s) →
      JiraClient.mapJiraStatusToPRState s = str "merged") ∧
    (∀ s : Str,
      ¬ occursIn (str "done") (toLower s) → ¬ occursIn (str "merged") (toLower s) →
      occursIn (str "closed") (toLower s) ∨ occursIn (str "rejected") (toLower s) →
      JiraClient.mapJiraStatusToPRState s = str "closed") ∧
    (∀ s : Str,
      ¬ occursIn (str "done") (toLower s) → ¬ occursIn (str "merged") (toLower s) →
      ¬ occursIn (str "closed") (toLower s) → ¬ occursIn (str "rejected") (toLower s) →
      JiraClient.mapJiraStatusToPRState s = str "open") ∧
    JiraClient.mapJiraStatusToPRState (str "Done") = str "merged" ∧
    JiraClient.mapJiraStatusToPRState (str "Rejected") = str "closed" ∧
    JiraClient.mapJiraStatusToPRState (str "In Review") = str "open" := by
  refine ⟨?_, ?_, ?_, by decide, by decide, by decide⟩
  · intro s h
    rcases h with h | h
    · have e : hasSub (str "done") (toLower s) = true :=
        (hasSub_iff_occursIn (by decide) (toLower s)).mpr h
      simp [JiraClient.mapJiraStatusToPRState, e]
    · have e : hasSub (str "merged") (toLower s) = true :=
        (hasSub_iff_occursIn (by decide) (toLower s)).mpr h
      simp [JiraClient.mapJiraStatusToPRState, e]
  · intro s h1 h2 h
    have e1 : hasSub (str "done") (toLower s) = false := hasSub_eq_false (by decide) h1
    have e2 : hasSub (str "merged") (toLower s) = false := hasSub_eq_false (by decide) h2
    rcases h with h | h
    · have e3 : hasSub (str "closed") (toLower s) = true :=
        (hasSub_iff_occursIn (by decide) (toLower s)).mpr h
      simp [JiraClient.mapJiraStatusToPRState, e1, e2, e3]
    · have e4 : hasSub (str "rejected") (toLower s) = true :=
        (hasSub_iff_occursIn (by decide) (toLower s)).mpr h
      simp [JiraClient.mapJiraStatusToPRState, e1, e2, e4]
  · intro s h1 h2 h3 h4
    have e1 : hasSub (str "done") (toLower s) = false := hasSub_eq_false (by decide) h1
    have e2 : hasSub (str "merged") (toLower s) = false := hasSub_eq_false (by decide) h2
    have e3 : hasSub (str "closed") (toLower s) = false := hasSub_eq_false (by decide) h3
    have e4 : hasSub (str "rejected") (toLower s) = false := hasSub_eq_false (by decide) h4
    simp [JiraClient.mapJiraStatusToPRState, e1, e2, e3, e4]

/-- C4 witness: the heuristic at a concrete uncontained status name. -/
theorem C4_witness : JiraClient.mapJiraStatusToPRState (str "Blocked") = str "open" := by
  apply C4_jira_pr_state_heuristic.2.2.1 (str "Blocked") <;>
    · intro h
      have := (hasSub_iff_occursIn (by decide) (toLower (str "Blocked"))).mpr h
      revert this
      decide

/-- C5: the ServiceNow derived PR-state mapping sends the codes for new,
in-progress, on-hold and pending to `open`, resolved to `merged`, closed to
`closed`, and every other input to `open`. -/
theorem C5_servicenow_pr_state :
    (∀ s ∈ [str "1", str "2", str "3", str "-5"],
      ServiceNowClient.mapServiceNowStateToPRState s = str "open") ∧
    ServiceNowClient.mapServiceNowStateToPRState (str "6") = str "merged" ∧
    ServiceNowClient.mapServiceNowStateToPRState (str "7") = str "closed" ∧
    ∀ s : Str, s ∉ [str "1", str "2", str "3", str "6", str "7", str "-5"] →
      ServiceNowClient.mapServiceNowStateToPRState s = str "open" := by
  refine ⟨by decide, rfl, rfl, ?_⟩
  intro s hs
  simp only [List.mem_cons, List.not_mem_nil, or_false, not_or] at hs
  obtain ⟨h1, h2, h3, h6, h7, h5⟩ := hs
  simp [ServiceNowClient.mapServiceNowStateToPRState, h1, h2, h3, h6, h7, h5]

/-- C5 witness: an unrecognized code maps to `open`. -/
theorem C5_witness : ServiceNowClient.mapServiceNowStateToPRState (str "9") = str "open" :=
  C5_servicenow_pr_state.2.2.2 (str "9") (by decide)

/-- C9: the dispatcher rejects a GitLab-typed configuration missing its
API token or project identifier and a Jira-typed configuration missing its
credentials or project key, rejects any unknown type tag with an error naming
that tag, and otherwise returns an adapter bound to the configuration; these
are exactly its failure cases. -/
theorem C9_factory_validation (config : RawConfig) :
    (config.type = str "gitlab" →
      config.hasApiToken = false ∨ config.hasProjectId = false →
      TicketClientFactory.createClient config = .error .invalidGitLab) ∧
    (config.type = str "jira" →
      config.hasApiToken = false ∨ config.hasEmail = false ∨ config.hasProjectKey = false →
      TicketClientFactory.createClient config = .error .invalidJira) ∧
    (config.type ∉ [str "github", str "gitlab", str "jira", str "servicenow"] →
      TicketClientFactory.createClient config = .error (.unknownPlatform config.type)) ∧
    (∀ c, TicketClientFactory.createClient config = .ok c → c.config = config) ∧
    ((∃ e, TicketClientFactory.createClient config = .error e) ↔
      config.type ∉ [str "github", str "gitlab", str "jira", str "servicenow"] ∨
      (config.type = str "gitlab" ∧ ¬ (config.hasApiToken = true ∧ config.hasProjectId = true)) ∨
      (config.type = str "jira" ∧
        ¬ (config.hasApiToken = true ∧ config.hasEmail = true ∧
           config.hasProjectKey = true))) := by
  obtain ⟨tag, tok, pid, em, pk⟩ := config
  dsimp only
  by_cases hg : tag = str "github"
  · subst hg
    have hC : TicketClientFactory.createClient ⟨str "github", tok, pid, em, pk⟩
        = Except.ok (BuiltClient.github ⟨str "github", tok, pid, em, pk⟩) := by
      simp [TicketClientFactory.createClient]
    refine ⟨fun h => absurd h (by decide), fun h => absurd h (by decide),
      fun h => absurd (show str "github" ∈
        [str "github", str "gitlab", str "jira", str "servicenow"] by decide) h, ?_, ?_⟩
    · intro c hc
      rw [hC] at hc
      injection hc with hc
      subst hc
      rfl
    · constructor
      · rintro ⟨e, he⟩
        rw [hC] at he
        simp at he
      · rintro (h | ⟨h, -⟩ | ⟨h, -⟩)
        · exact absurd (by decide) h
        · exact absurd h (by decide)
        · exact absurd h (by decide)
  · by_cases hl : tag = str "gitlab"
    · subst hl
      have hC : TicketClientFactory.createClient ⟨str "gitlab", tok, pid, em, pk⟩
          = if (tok && pid) = true then
              Except.ok (BuiltClient.gitlab ⟨str "gitlab", tok, pid, em, pk⟩)
            else Except.error FactoryError.invalidGitLab := by
        simp [TicketClientFactory.createClient, hg]
      refine ⟨?_, fun h => absurd h (by decide),
        fun h => absurd (show str "gitlab" ∈
          [str "github", str "gitlab", str "jira", str "servicenow"] by decide) h, ?_, ?_⟩
      · rintro - (h | h) <;>
          · rw [hC, if_neg (by simp [h])]
      · intro c hc
        rw [hC] at hc
        by_cases hv : (tok && pid) = true
        · rw [if_pos hv] at hc
          injection hc with hc
          subst hc
          rfl
        · rw [if_neg hv] at hc
          simp at hc
      · rw [hC]
        by_cases hv : (tok && pid) = true
        · rw [if_pos hv]
          rw [Bool.and_eq_true] at hv
          constructor
          · rintro ⟨e, he⟩
            simp at he
          · rintro (h | ⟨-, h⟩ | ⟨h, -⟩)
            · exact absurd (by decide) h
            · exact absurd ⟨hv.1, hv.2⟩ h
            · exact absurd h (by decide)
        · rw [if_neg hv]
          refine ⟨fun _ => Or.inr (Or.inl ⟨rfl, ?_⟩), fun _ => ⟨_, rfl⟩⟩
          rintro ⟨h1, h2⟩
          exact hv (by rw [h1, h2]; rfl)
    · by_cases hj : tag = str "jira"
      · subst hj
        have hC : TicketClientFactory.createClient ⟨str "jira", tok, pid, em, pk⟩
            = if (tok && em && pk) = true then
                Except.ok (BuiltClient.jira ⟨str "jira", tok, pid, em, pk⟩)
              else Except.error FactoryError.invalidJira := by
          simp [TicketClientFactory.createClient, hg, hl]
        refine ⟨fun h => absurd h (by decide), ?_,
          fun h => absurd (show str "jira" ∈
            [str "github", str "gitlab", str "jira", str "servicenow"] by decide) h, ?_, ?_⟩
        · rintro - (h | h | h) <;>
            · rw [hC, if_neg (by simp [h])]
        · intro c hc
          rw [hC] at hc
          by_cases hv : (tok && em && pk) = true
          · rw [if_pos hv] at hc
            injection hc with hc
            subst hc
            rfl
          · rw [if_neg hv] at hc
            simp at hc
        · rw [hC]
          by_cases hv : (tok && em && pk) = true
          · rw [if_pos hv]
            rw [Bool.and_eq_true, Bool.and_eq_true] at hv
            constructor
            · rintro ⟨e, he⟩
              simp at he
            · rintro (h | ⟨h, -⟩ | ⟨-, h⟩)
              · exact absurd (by decide) h
              · exact absurd h (by decide)
              · exact absurd ⟨hv.1.1, hv.1.2, hv.2⟩ h
          · rw [if_neg hv]
            refine ⟨fun _ => Or.inr (Or.inr ⟨rfl, ?_⟩), fun _ => ⟨_, rfl⟩⟩
            rintro ⟨h1, h2, h3⟩
            exact hv (by rw [h1, h2, h3]; rfl)
      · by_cases hs : tag = str "servicenow"
        · subst hs
          have hC : TicketClientFactory.createClient ⟨str "servicenow", tok, pid, em, pk⟩
              = Except.ok (BuiltClient.servicenow ⟨str "servicenow", tok, pid, em, pk⟩) := by
            simp [TicketClientFactory.createClient, hg, hl, hj]
          refine ⟨fun h => absurd h (by decide), fun h => absurd h (by decide),
            fun h => absurd (show str "servicenow" ∈
              [str "github", str "gitlab", str "jira", str "servicenow"] by decide) h,
            ?_, ?_⟩
          · intro c hc
            rw [hC] at hc
            injection hc with hc
            subst hc
            rfl
          · constructor
            · rintro ⟨e, he⟩
              rw [hC] at he
              simp at he
            · rintro (h | ⟨h, -⟩ | ⟨h, -⟩)
              · exact absurd (by decide) h
              · exact absurd h (by decide)
              · exact absurd h (by decide)
        · have hC : TicketClientFactory.createClient ⟨tag, tok, pid, em, pk⟩
              = Except.error (FactoryError.unknownPlatform tag) := by
            simp [TicketClientFactory.createClient, hg, hl, hj, hs]
          have hmem : tag ∉ [str "github", str "gitlab", str "jira", str "servicenow"] := by
            simp [hg, hl, hj, hs]
          refine ⟨fun h => absurd h hl, fun h => absurd h hj, fun _ => hC, ?_, ?_⟩
          · intro c hc
            rw [hC] at hc
            simp at hc
          · exact ⟨fun _ => Or.inl hmem, fun _ => ⟨_, hC⟩⟩

/-- C9 witness: a GitLab-typed configuration missing its project id is
rejected, and an unknown tag is rejected with an error naming it. -/
theorem C9_witness :
    TicketClientFactory.createClient ⟨str "gitlab", true, false, false, false⟩
        = .error .invalidGitLab ∧
    TicketClientFactory.createClient ⟨str "bitbucket", true, true, true, true⟩
        = .error (.unknownPlatform (str "bitbucket")) := by
  constructor
  · exact (C9_factory_validation ⟨str "gitlab", true, false, false, false⟩).1 rfl
      (Or.inr rfl)
  · exact (C9_factory_validation ⟨str "bitbucket", true, true, true, true⟩).2.2.1
      (by decide)

/-- C10: a GitHub raw record carrying the pull-request marker has `head.ref`
and `base.ref` read unconditionally, so normalization of such a record
without those objects fails with a runtime type error, and a `getTickets`
whose issue list contains such a record fails as a whole. -/
theorem C10_github_missing_head :
    (∀ t : GHRaw, t.hasPullRequestMarker = true → t.head = none ∨ t.base = none →
      GitHubClient.normalizeTicket t = .error .typeError) ∧
    (∀ (r : GHRemote) (options : GetTicketsOptions),
      (∃ t ∈ r.issuesList (GitHubClient.listState options) options.assigneeId,
        t.hasPullRequestMarker = true ∧ (t.head = none ∨ t.base = none)) →
      ∃ e, GitHubClient.getTickets r options = .error e) := by
  have h1 : ∀ t : GHRaw, t.hasPullRequestMarker = true → t.head = none ∨ t.base = none →
      GitHubClient.normalizeTicket t = .error .typeError := by
    intro t hm hh
    rw [GitHubClient.normalizeTicket]
    rw [if_pos hm]
    rcases hh with hh | hh
    · rw [hh]
    · rw [hh]
      cases t.head <;> rfl
  refine ⟨h1, ?_⟩
  intro r options ⟨t, ht, hm, hh⟩
  exact mapM_error_of_mem _ _ ⟨t, ht, .typeError, h1 t hm hh⟩

/-- A pull-request record as returned by the issues-list endpoint: it has the
`pull_request` marker but no `head`/`base` objects. -/
def ghListPR : GHRaw :=
  { number := 5, title := str "PR", body := none, created_at := str "c",
    updated_at := str "u", state := str "open", user := ⟨1, str "alice"⟩,
    assignee := none, hasPullRequestMarker := true, head := none, base := none }

/-- A GitHub remote whose issue list contains `ghListPR`. -/
def ghListRemote : GHRemote :=
  { pulls := fun _ => none, issues := fun _ => none,
    issuesList := fun _ _ => [ghListPR] }

/-- C10 witness: normalization of the concrete marker-bearing record fails
and the list call over it fails. -/
theorem C10_witness :
    GitHubClient.normalizeTicket ghListPR = .error .typeError ∧
    ∃ e, GitHubClient.getTickets ghListRemote ⟨none, none⟩ = .error e := by
  constructor
  · exact C10_github_missing_head.1 ghListPR rfl (Or.inl rfl)
  · exact C10_github_missing_head.2 ghListRemote ⟨none, none⟩
      ⟨ghListPR, by simp [ghListRemote], rfl, Or.inl rfl⟩

/-- C1: on every adapter with two candidate resource types, `getTicket`
probes the review-like resource first, falls back to the issue-like resource
exactly when the first probe fails (the first failure being swallowed), and
produces an error only when both probes have failed.  For GitHub the
characterization assumes the remote records normalize successfully, which
matches the payload shapes of the probed endpoints. -/
theorem C1_getTicket_probe_then_fallback :
    (∀ (r : SNRemote) (id : Str),
      (r.changeTable id ≠ none →
        (ServiceNowClient.getTicket r id).2 = [.getChange id]) ∧
      (r.changeTable id = none →
        (ServiceNowClient.getTicket r id).2 = [.getChange id, .getIncident id]) ∧
      ((∃ e, (ServiceNowClient.getTicket r id).1 = .error e) ↔
        r.changeTable id = none ∧ r.incidentTable id = none)) ∧
    (∀ (r : GLRemote) (id : Str),
      (r.mergeRequests id ≠ none →
        (GitLabClient.getTicket r id).2 = [.mrShow id]) ∧
      (r.mergeRequests id = none →
        (GitLabClient.getTicket r id).2 = [.mrShow id, .issueShow id]) ∧
      ((∃ e, (GitLabClient.getTicket r id).1 = .error e) ↔
        r.mergeRequests id = none ∧ r.issues id = none)) ∧
    (∀ (r : GHRemote) (id : Str),
      (∀ t, r.pulls id = some t → ∃ st, GitHubClient.normalizeTicket t = .ok st) →
      (∀ t, r.issues id = some t → ∃ st, GitHubClient.normalizeTicket t = .ok st) →
      (r.pulls id ≠ none →
        (GitHubClient.getTicket r id).2 = [.pullsGet id]) ∧
      (r.pulls id = none →
        (GitHubClient.getTicket r id).2 = [.pullsGet id, .issuesGet id]) ∧
      ((∃ e, (GitHubClient.getTicket r id).1 = .error e) ↔
        r.pulls id = none ∧ r.issues id = none)) := by
  refine ⟨?_, ?_, ?_⟩
  · intro r id
    cases hc : r.changeTable id with
    | some rec =>
      exact ⟨fun _ => by simp [ServiceNowClient.getTicket, hc],
        fun h => absurd h (by simp),
        by simp [ServiceNowClient.getTicket, hc]⟩
    | none =>
      cases hi : r.incidentTable id with
      | some rec =>
        exact ⟨fun h => absurd rfl h,
          fun _ => by simp [ServiceNowClient.getTicket, hc, hi],
          by simp [ServiceNowClient.getTicket, hc, hi]⟩
      | none =>
        exact ⟨fun h => absurd rfl h,
          fun _ => by simp [ServiceNowClient.getTicket, hc, hi],
          by simp [ServiceNowClient.getTicket, hc, hi]⟩
  · intro r id
    cases hc : r.mergeRequests id with
    | some rec =>
      exact ⟨fun _ => by simp [GitLabClient.getTicket, hc],
        fun h => absurd h (by simp),
        by simp [GitLabClient.getTicket, hc]⟩
    | none =>
      cases hi : r.issues id with
      | some rec =>
        exact ⟨fun h => absurd rfl h,
          fun _ => by simp [GitLabClient.getTicket, hc, hi],
          by simp [GitLabClient.getTicket, hc, hi]⟩
      | none =>
        exact ⟨fun h => absurd rfl h,
          fun _ => by simp [GitLabClient.getTicket, hc, hi],
          by simp [GitLabClient.getTicket, hc, hi]⟩
  · intro r id hwp hwi
    cases hc : r.pulls id with
    | some pr =>
      obtain ⟨st, hst⟩ := hwp pr hc
      exact ⟨fun _ => by simp [GitHubClient.getTicket, hc, hst],
        fun h => absurd h (by simp),
        by simp [GitHubClient.getTicket, hc, hst]⟩
    | none =>
      cases hi : r.issues id with
      | some issue =>
        obtain ⟨st, hst⟩ := hwi issue hi
        exact ⟨fun h => absurd rfl h,
          fun _ => by simp [GitHubClient.getTicket, hc, hi],
          by simp [GitHubClient.getTicket, hc, hi, hst]⟩
      | none =>
        exact ⟨fun h => absurd rfl h,
          fun _ => by simp [GitHubClient.getTicket, hc, hi],
          by simp [GitHubClient.getTicket, hc, hi]⟩

/-- A ServiceNow remote with empty tables. -/
def snEmptyRemote : SNRemote :=
  { changeTable := fun _ => none, incidentTable := fun _ => none,
    patchChange := fun _ _ => none, patchIncident := fun _ _ => none }

/-- A GitLab remote with empty endpoints. -/
def glEmptyRemote : GLRemote :=
  { mergeRequests := fun _ => none, issues := fun _ => none,
    issueEdit := fun _ _ => none, mrNotes := fun _ _ => none,
    issueNotes := fun _ _ => none }

/-- A GitHub remote with empty endpoints. -/
def ghEmptyRemote : GHRemote :=
  { pulls := fun _ => none, issues := fun _ => none, issuesList := fun _ _ => [] }

/-- C1 witness: a nonexistent identifier costs exactly two probes, in the
review-resource-first order, on each platform, and only then fails. -/
theorem C1_witness :
    (ServiceNowClient.getTicket snEmptyRemote (str "999999")).2
        = [.getChange (str "999999"), .getIncident (str "999999")] ∧
    (GitLabClient.getTicket glEmptyRemote (str "999999")).2
        = [.mrShow (str "999999"), .issueShow (str "999999")] ∧
    (GitHubClient.getTicket ghEmptyRemote (str "999999")).2
        = [.pullsGet (str "999999"), .issuesGet (str "999999")] ∧
    (∃ e, (ServiceNowClient.getTicket snEmptyRemote (str "999999")).1 = .error e) := by
  obtain ⟨hsn, hgl, hgh⟩ := C1_getTicket_probe_then_fallback
  refine ⟨(hsn snEmptyRemote (str "999999")).2.1 rfl,
    (hgl glEmptyRemote (str "999999")).2.1 rfl, ?_, ?_⟩
  · exact ((hgh ghEmptyRemote (str "999999")
      (fun t ht => absurd ht (by simp [ghEmptyRemote]))
      (fun t ht => absurd ht (by simp [ghEmptyRemote]))).2.1) rfl
  · exact ((hsn snEmptyRemote (str "999999")).2.2).mpr ⟨rfl, rfl⟩

/-- A merge-request record that exists on the stub GitLab remote. -/
def glSampleMR : GLRaw :=
  { iid := 7, title := str "mr", description := none, created_at := str "c",
    updated_at := str "u", state := str "opened", author := ⟨1, str "alice"⟩,
    assignee := none, source_branch := some (str "feat/x"),
    target_branch := some (str "main") }

/-- A GitLab remote on which identifier `7` names an existing merge request
but every issue endpoint fails. -/
def glMROnlyRemote : GLRemote :=
  { mergeRequests := fun _ => some glSampleMR, issues := fun _ => none,
    issueEdit := fun _ _ => none, mrNotes := fun _ _ => none,
    issueNotes := fun _ _ => none }

/-- An update carrying only a new title. -/
def sampleUpdate : UpdateTicketOptions :=
  { title := some (str "new title"), description := none, assigneeId := none,
    labels := none }

/-- C8 counterexample: on GitLab, `updateTicket` issues a single issue-edit
call — it never attempts the review-like (merge-request) resource, even when
the identifier names an existing merge request — so the edit fails instead of
falling back, contradicting the claimed probe-then-fallback ordering. -/
theorem C8_update_counterexample :
    glMROnlyRemote.mergeRequests (str "7") = some glSampleMR ∧
    (GitLabClient.updateTicket glMROnlyRemote (str "7") sampleUpdate).2
        = [.issueEdit (str "7") (GitLabClient.buildEditPayload sampleUpdate)] ∧
    (∀ c ∈ (GitLabClient.updateTicket glMROnlyRemote (str "7") sampleUpdate).2,
      c ≠ .mrShow (str "7")) ∧
    (GitLabClient.updateTicket glMROnlyRemote (str "7") sampleUpdate).1
        = .error .transportFailure := by
  refine ⟨rfl, rfl, ?_, rfl⟩
  intro c hc
  simp only [GitLabClient.updateTicket, glMROnlyRemote, List.mem_singleton] at hc
  subst hc
  simp

/-- C8 amended: ServiceNow's `updateTicket` and `addComment` and GitLab's
`addComment` probe the review-like resource first and fall back to the
issue-like resource exactly when the first attempt fails; GitLab's
`updateTicket`, however, performs a single issue edit with no probing. -/
theorem C8_update_comment_amended :
    (∀ (r : SNRemote) (id : Str) (u : UpdateTicketOptions),
      (r.patchChange id (ServiceNowClient.buildUpdatePayload u) ≠ none →
        (ServiceNowClient.updateTicket r id u).2
          = [.patchChange id (ServiceNowClient.buildUpdatePayload u)]) ∧
      (r.patchChange id (ServiceNowClient.buildUpdatePayload u) = none →
        (ServiceNowClient.updateTicket r id u).2
          = [.patchChange id (ServiceNowClient.buildUpdatePayload u),
             .patchIncident id (ServiceNowClient.buildUpdatePayload u)])) ∧
    (∀ (r : SNRemote) (id : Str) (comment : Str),
      (r.patchChange id (ServiceNowClient.commentPayload comment) ≠ none →
        (ServiceNowClient.addComment r id comment).2
          = [.patchChange id (ServiceNowClient.commentPayload comment)]) ∧
      (r.patchChange id (ServiceNowClient.commentPayload comment) = none →
        (ServiceNowClient.addComment r id comment).2
          = [.patchChange id (ServiceNowClient.commentPayload comment),
             .patchIncident id (ServiceNowClient.commentPayload comment)])) ∧
    (∀ (r : GLRemote) (id : Str) (comment : Str),
      (r.mrNotes id comment ≠ none →
        (GitLabClient.addComment r id comment).2 = [.mrNoteCreate id comment]) ∧
      (r.mrNotes id comment = none →
        (GitLabClient.addComment r id comment).2
          = [.mrNoteCreate id comment, .issueNoteCreate id comment])) ∧
    (∀ (r : GLRemote) (id : Str) (u : UpdateTicketOptions),
      (GitLabClient.updateTicket r id u).2
        = [.issueEdit id (GitLabClient.buildEditPayload u)]) := by
  refine ⟨?_, ?_, ?_, ?_⟩
  · intro r id u
    cases hc : r.patchChange id (ServiceNowClient.buildUpdatePayload u) with
    | some rec =>
      exact ⟨fun _ => by simp [ServiceNowClient.updateTicket, hc], fun h => absurd h (by simp)⟩
    | none =>
      cases hi : r.patchIncident id (ServiceNowClient.buildUpdatePayload u) with
      | some rec =>
        exact ⟨fun h => absurd rfl h,
          fun _ => by simp [ServiceNowClient.updateTicket, hc, hi]⟩
      | none =>
        exact ⟨fun h => absurd rfl h,
          fun _ => by simp [ServiceNowClient.updateTicket, hc, hi]⟩
  · intro r id comment
    cases hc : r.patchChange id (ServiceNowClient.commentPayload comment) with
    | some rec =>
      exact ⟨fun _ => by simp [ServiceNowClient.addComment, hc], fun h => absurd h (by simp)⟩
    | none =>
      cases hi : r.patchIncident id (ServiceNowClient.commentPayload comment) with
      | some rec =>
        exact ⟨fun h => absurd rfl h,
          fun _ => by simp [ServiceNowClient.addComment, hc, hi]⟩
      | none =>
        exact ⟨fun h => absurd rfl h,
          fun _ => by simp [ServiceNowClient.addComment, hc, hi]⟩
  · intro r id comment
    cases hc : r.mrNotes id comment with
    | some note =>
      exact ⟨fun _ => by simp [GitLabClient.addComment, hc], fun h => absurd h (by simp)⟩
    | none =>
      cases hi : r.issueNotes id comment with
      | some note =>
        exact ⟨fun h => absurd rfl h, fun _ => by simp [GitLabClient.addComment, hc, hi]⟩
      | none =>
        exact ⟨fun h => absurd rfl h, fun _ => by simp [GitLabClient.addComment, hc, hi]⟩
  · intro r id u
    cases hc : r.issueEdit id (GitLabClient.buildEditPayload u) with
    | some rec => simp [GitLabClient.updateTicket, hc]
    | none => simp [GitLabClient.updateTicket, hc]

/-- C8 witness: the ServiceNow comment falls back to the incident PATCH on a
remote whose change-request PATCH fails. -/
theorem C8_witness :
    (ServiceNowClient.addComment snEmptyRemote (str "42") (str "hi")).2
      = [.patchChange (str "42") (ServiceNowClient.commentPayload (str "hi")),
         .patchIncident (str "42") (ServiceNowClient.commentPayload (str "hi"))] :=
  (C8_update_comment_amended.2.1 snEmptyRemote (str "42") (str "hi")).2 rfl

/-- C6 counterexample: on the ServiceNow adapter an unrecognized status value
is not omitted from the remote query — it is translated to the default code
`"1"`, producing the same query a `new` filter produces, whereas an absent
filter produces an empty query. -/
theorem C6_filter_counterexample :
    ServiceNowClient.buildQuery ⟨some (str "bogus"), none⟩
        = str "?sysparm_query=state=1" ∧
    ServiceNowClient.buildQuery ⟨some (str "bogus"), none⟩
        = ServiceNowClient.buildQuery ⟨some (str "new"), none⟩ ∧
    ServiceNowClient.buildQuery ⟨none, none⟩ = [] := by
  exact ⟨by decide, by decide, rfl⟩

/-- C6 amended: `getTickets` never throws on any adapter for an unrecognized
status value, but only GitLab omits the filter; ServiceNow translates the
value to the default code `"1"` and applies a `state=1` filter, while Jira
and GitHub pass the raw value into the remote query verbatim. -/
theorem C6_filter_amended :
    (∀ s : Str, s ≠ [] → toLower s ≠ str "open" → toLower s ≠ str "closed" →
      GitLabClient.mapStatus (some s) = none) ∧
    (∀ s : Str,
      toLower s ∉ [str "new", str "in_progress", str "on_hold", str "resolved",
        str "closed", str "pending"] →
      ServiceNowClient.mapStatusToServiceNow s = str "1") ∧
    (∀ s : Str, s ≠ [] →
      ServiceNowClient.buildQuery ⟨some s, none⟩
        = str "?sysparm_query=state=" ++ ServiceNowClient.mapStatusToServiceNow s) ∧
    (∀ projectKey s : Str, s ≠ [] →
      JiraClient.buildJql projectKey ⟨some s, none⟩
        = str "project = " ++ projectKey ++ str " AND status = \"" ++ s ++ str "\"") ∧
    (∀ s : Str, s ≠ [] → GitHubClient.listState ⟨some s, none⟩ = s) := by
  refine ⟨?_, ?_, ?_, ?_, ?_⟩
  · intro s hne h1 h2
    simp [GitLabClient.mapStatus, hne, h1, h2]
  · intro s hs
    simp only [List.mem_cons, List.not_mem_nil, or_false, not_or] at hs
    obtain ⟨h1, h2, h3, h4, h5, h6⟩ := hs
    simp [ServiceNowClient.mapStatusToServiceNow, h1, h2, h3, h4, h5, h6]
  · intro s hne
    have hm : str "state=" ++ ServiceNowClient.mapStatusToServiceNow s ++ str "^"
        ≠ [] := by
      intro hcontra
      rw [List.append_eq_nil] at hcontra
      exact absurd hcontra.2 (by decide)
    simp only [ServiceNowClient.buildQuery, if_neg hne, List.append_nil]
    split
    · rename_i hx
      exact absurd hx hm
    · have hcar : str "^" = ['^'] := rfl
      rw [hcar, List.dropLast_concat, ← List.append_assoc]
      rfl
  · intro projectKey s hne
    simp [JiraClient.buildJql, hne, List.append_assoc]
  · intro s hne
    simp [GitHubClient.listState, hne]

/-- C6 witness: the concrete mapping and query shapes for a bogus filter. -/
theorem C6_witness :
    ServiceNowClient.mapStatusToServiceNow (str "bogus") = str "1" ∧
    GitLabClient.mapStatus (some (str "bogus")) = none ∧
    GitHubClient.listState ⟨some (str "bogus"), none⟩ = str "bogus" := by
  refine ⟨C6_filter_amended.2.1 (str "bogus") (by decide), ?_, ?_⟩
  · exact C6_filter_amended.1 (str "bogus") (by decide) (by decide) (by decide)
  · exact C6_filter_amended.2.2.2.2 (str "bogus") (by decide)

/-- A ServiceNow incident record carrying the undocumented state code 5. -/
def snRaw5 : SNRaw :=
  { sys_id := str "abc", short_description := str "t", description := none,
    state := str "5", sys_class_name := str "incident", category := none,
    sys_created_by := str "u", sys_created_on := str "c",
    sys_updated_on := str "m", sys_updated_by := str "u", assigned_to := none,
    work_notes := none }

/-- A ServiceNow remote whose incident table holds `snRaw5`. -/
def snRemote5 : SNRemote :=
  { changeTable := fun _ => none, incidentTable := fun _ => some snRaw5,
    patchChange := fun _ _ => none, patchIncident := fun _ _ => none }

/-- C7 counterexample: a ticket returned to the caller by the ServiceNow
adapter carries the raw platform state code `"5"` in its `status` field — a
value outside the shared vocabulary — so raw platform codes do leak. -/
theorem C7_vocabulary_counterexample :
    (ServiceNowClient.getTicket snRemote5 (str "abc")).1
        = .ok (ServiceNowClient.normalizeTicket snRaw5) ∧
    (ServiceNowClient.normalizeTicket snRaw5).status = str "5" ∧
    str "5" ∉ sharedVocab := by
  exact ⟨rfl, by decide, by decide⟩

/-- C7 amended: the `state` field of review requests produced by the Jira and
ServiceNow mapping functions is always one of open, closed or merged, and the
six recognized ServiceNow codes normalize into the shared vocabulary; but an
unrecognized ServiceNow code passes through unchanged, the Jira adapter
returns the lowercased raw status name, GitLab returns the raw state except
for `opened`, and GitHub and GitLab pass the raw platform state into the
`status` and review-request `state` fields. -/
theorem C7_vocabulary_amended :
    (∀ s : Str, JiraClient.mapJiraStatusToPRState s ∈ prStateVocab) ∧
    (∀ s : Str, ServiceNowClient.mapServiceNowStateToPRState s ∈ prStateVocab) ∧
    (∀ s ∈ [str "1", str "2", str "3", str "6", str "7", str "-5"],
      ServiceNowClient.normalizeStatus s ∈ sharedVocab) ∧
    (∀ s : Str, s ∉ [str "1", str "2", str "3", str "6", str "7", str "-5"] →
      ServiceNowClient.normalizeStatus s = s) ∧
    (∀ t : JiraRaw, (JiraClient.normalizeTicket t).status
        = toLower t.fields.statusName) ∧
    (∀ t : SNRaw, (ServiceNowClient.normalizeTicket t).status
        = ServiceNowClient.normalizeStatus t.state) ∧
    (∀ s : Str, toLower s ≠ str "opened" → GitLabClient.normalizeStatus s = s) ∧
    (∀ t : GHRaw, ∀ st, GitHubClient.normalizeTicket t = .ok st →
      st.status = t.state) ∧
    (∀ t : GLRaw, ∀ sb, t.source_branch = some sb →
      (GitLabClient.normalizeTicket t).prState? = some t.state) := by
  refine ⟨?_, ?_, by decide, C3_servicenow_status_total.2.2.2.2.2.2, ?_, ?_, ?_, ?_, ?_⟩
  · intro s
    simp only [JiraClient.mapJiraStatusToPRState]
    split
    · decide
    · split
      · decide
      · decide
  · intro s
    simp only [ServiceNowClient.mapServiceNowStateToPRState]
    split
    · decide
    · split
      · decide
      · split
        · decide
        · decide
  · intro t
    simp only [JiraClient.normalizeTicket]
    split
    · rfl
    · rfl
  · intro t
    simp only [ServiceNowClient.normalizeTicket]
    split
    · rfl
    · rfl
  · intro s h
    simp [GitLabClient.normalizeStatus, h]
  · intro t st hst
    simp only [GitHubClient.normalizeTicket] at hst
    by_cases hm : t.hasPullRequestMarker = true
    · rw [if_pos hm] at hst
      cases hh : t.head with
      | none => rw [hh] at hst; simp at hst
      | some hd =>
        cases hb : t.base with
        | none => rw [hh, hb] at hst; simp at hst
        | some bs =>
          rw [hh, hb] at hst
          injection hst with hst
          subst hst
          rfl
    · rw [if_neg hm] at hst
      injection hst with hst
      subst hst
      rfl
  · intro t sb hsb
    simp [GitLabClient.normalizeTicket, hsb, StandardTicket.prState?]

/-- C7 witness: the state mapping stays in the three-way vocabulary at a
concrete input while a concrete unrecognized code passes through raw. -/
theorem C7_witness :
    JiraClient.mapJiraStatusToPRState (str "Weird") ∈ prStateVocab ∧
    ServiceNowClient.normalizeStatus (str "5") = str "5" :=
  ⟨C7_vocabulary_amended.1 (str "Weird"),
   C7_vocabulary_amended.2.2.2.1 (str "5") (by decide)⟩

/-! ### The branch round-trip (claim C2) -/

theorem not_occursIn_of_hasSub_false {pat s : Str} (hp : pat ≠ [])
    (h : hasSub pat s = false) : ¬ occursIn pat s := by
  intro hocc
  rw [(hasSub_iff_occursIn hp s).mpr hocc] at h
  exact Bool.noConfusion h

/-- The lines of the description `createReviewRequest` builds: a prefix of
lines coming from the (left-trimmed) user description plus possibly one empty
line, then the source-branch label line, then the target-branch label line,
then the reviewers material. -/
theorem reviewDescription_lines (description sourceBranch targetBranch : Str)
    (reviewers : Option (List Str))
    (hsn : '\n' ∉ sourceBranch) (htn : '\n' ∉ targetBranch) :
    ∃ pre rest,
      splitLines (reviewDescription description sourceBranch targetBranch reviewers)
        = pre ++ (str "Source Branch: " ++ sourceBranch)
            :: (str "Target Branch: " ++ targetBranch) :: rest ∧
      ∀ l ∈ pre, l = [] ∨ occursIn l description := by
  have hsplit : reviewDescription description sourceBranch targetBranch reviewers
      = trimBoth ((str "\n" ++ description ++ str "\n\nSource Branch: " ++ sourceBranch
          ++ str "\nTarget Branch: " ++ targetBranch ++ ['\n'])
        ++ (str "Reviewers: " ++ reviewersText reviewers ++ str "\n    ")) := by
    rw [reviewDescription]
    congr 1
    simp only [List.append_assoc]
    rfl
  have hwit : ∃ c ∈ str "Reviewers: " ++ reviewersText reviewers ++ str "\n    ",
      wsp c = false := by
    refine ⟨'R', ?_, by decide⟩
    exact List.mem_append_left _ (List.mem_append_left _ (by decide))
  rw [hsplit, trimBoth, trimRight_append_keep _ _ hwit]
  have hA : (str "\n" ++ description ++ str "\n\nSource Branch: " ++ sourceBranch
        ++ str "\nTarget Branch: " ++ targetBranch ++ ['\n'])
        ++ trimRight (str "Reviewers: " ++ reviewersText reviewers ++ str "\n    ")
      = '\n' :: (description ++ '\n' :: '\n' ::
          ((str "Source Branch: " ++ sourceBranch)
            ++ '\n' :: ((str "Target Branch: " ++ targetBranch)
              ++ '\n' :: trimRight
                (str "Reviewers: " ++ reviewersText reviewers ++ str "\n    ")))) := by
    simp only [List.append_assoc]
    rfl
  rw [hA, trimLeft_cons_ws (by decide)]
  have hsline : '\n' ∉ str "Source Branch: " ++ sourceBranch := by
    intro hmem
    rw [List.mem_append] at hmem
    rcases hmem with hmem | hmem
    · exact absurd hmem (by decide)
    · exact hsn hmem
  have htline : '\n' ∉ str "Target Branch: " ++ targetBranch := by
    intro hmem
    rw [List.mem_append] at hmem
    rcases hmem with hmem | hmem
    · exact absurd hmem (by decide)
    · exact htn hmem
  rw [trimLeft_append]
  by_cases hD : trimLeft description = []
  · rw [if_pos hD]
    rw [trimLeft_cons_ws (by decide), trimLeft_cons_ws (by decide)]
    have hcons : (str "Source Branch: " ++ sourceBranch)
        ++ '\n' :: ((str "Target Branch: " ++ targetBranch)
          ++ '\n' :: trimRight (str "Reviewers: " ++ reviewersText reviewers ++ str "\n    "))
        = 'S' :: ((str "ource Branch: " ++ sourceBranch)
          ++ '\n' :: ((str "Target Branch: " ++ targetBranch)
            ++ '\n' :: trimRight
              (str "Reviewers: " ++ reviewersText reviewers ++ str "\n    "))) := rfl
    rw [hcons, trimLeft_cons_not_ws (by decide), ← hcons]
    rw [splitLines_line_append _ hsline, splitLines_line_append _ htline]
    exact ⟨[], _, rfl, by simp⟩
  · rw [if_neg hD]
    rw [splitLines_newline_append, splitLines_newline]
    rw [splitLines_line_append _ hsline, splitLines_line_append _ htline]
    refine ⟨splitLines (trimLeft description) ++ [[]],
      splitLines (trimRight (str "Reviewers: " ++ reviewersText reviewers ++ str "\n    ")),
      ?_, ?_⟩
    · simp only [List.append_assoc, List.cons_append, List.nil_append]
    intro l hl
    rw [List.mem_append] at hl
    rcases hl with hl | hl
    · exact Or.inr (occursIn_of_trimLeft (mem_splitLines_occursIn hl))
    · rw [List.mem_singleton] at hl
      exact Or.inl hl

/-- The read of the source-branch label from the built description. -/
theorem matchLabel_reviewDescription_src
    (description sourceBranch targetBranch : Str) (reviewers : Option (List Str))
    (hs : sourceBranch ≠ []) (hsn : '\n' ∉ sourceBranch) (htn : '\n' ∉ targetBranch)
    (hd1 : ¬ occursIn (str "Source Branch: ") description) :
    matchLabel (str "Source Branch: ")
      (reviewDescription description sourceBranch targetBranch reviewers)
      = some sourceBranch := by
  obtain ⟨pre, rest, hsplit, hpre⟩ :=
    reviewDescription_lines description sourceBranch targetBranch reviewers hsn htn
  rw [matchLabel, hsplit, findFirst_append]
  have hnone : findFirst (lineCapture (str "Source Branch: ")) pre = none := by
    apply findFirst_eq_none
    intro l hl
    rcases hpre l hl with rfl | hocc
    · exact lineCapture_nil _
    · exact lineCapture_eq_none' (by decide) fun hOl => hd1 (occursIn_trans hOl hocc)
  rw [hnone]
  show findFirst (lineCapture (str "Source Branch: "))
      ((str "Source Branch: " ++ sourceBranch)
        :: (str "Target Branch: " ++ targetBranch) :: rest)
      = some sourceBranch
  rw [findFirst_cons, lineCapture_label' (by decide) sourceBranch hs]

/-- The read of the target-branch label from the built description. -/
theorem matchLabel_reviewDescription_tgt
    (description sourceBranch targetBranch : Str) (reviewers : Option (List Str))
    (ht : targetBranch ≠ []) (hsn : '\n' ∉ sourceBranch) (htn : '\n' ∉ targetBranch)
    (hd2 : ¬ occursIn (str "Target Branch: ") description)
    (hst : ¬ occursIn (str "Target Branch: ") sourceBranch) :
    matchLabel (str "Target Branch: ")
      (reviewDescription description sourceBranch targetBranch reviewers)
      = some targetBranch := by
  obtain ⟨pre, rest, hsplit, hpre⟩ :=
    reviewDescription_lines description sourceBranch targetBranch reviewers hsn htn
  rw [matchLabel, hsplit, findFirst_append]
  have hnone : findFirst (lineCapture (str "Target Branch: ")) pre = none := by
    apply findFirst_eq_none
    intro l hl
    rcases hpre l hl with rfl | hocc
    · exact lineCapture_nil _
    · exact lineCapture_eq_none' (by decide) fun hOl => hd2 (occursIn_trans hOl hocc)
  have hsrcline : ¬ occursIn (str "Target Branch: ")
      (str "Source Branch: " ++ sourceBranch) := by
    intro hocc
    rcases occursIn_append_split (c := 'T') (p := str "arget Branch: ")
        (a := str "Source Branch: ") (b := sourceBranch) hocc with hT | hocc2
    · exact absurd hT (by decide)
    · exact hst hocc2
  rw [hnone]
  show findFirst (lineCapture (str "Target Branch: "))
      ((str "Source Branch: " ++ sourceBranch)
        :: (str "Target Branch: " ++ targetBranch) :: rest)
      = some targetBranch
  rw [findFirst_cons, lineCapture_eq_none' (by decide) hsrcline]
  show findFirst (lineCapture (str "Target Branch: "))
      ((str "Target Branch: " ++ targetBranch) :: rest)
      = some targetBranch
  rw [findFirst_cons, lineCapture_label' (by decide) targetBranch ht]

/-- A description without a label occurrence never yields a capture. -/
theorem matchLabel_none_of_no_label {pat : Str} (hp : pat ≠ []) {d : Str}
    (h : ¬ occursIn pat d) : matchLabel pat d = none := by
  rw [matchLabel]
  apply findFirst_eq_none
  intro l hl
  exact lineCapture_eq_none' hp
    fun hOl => h (occursIn_trans hOl (mem_splitLines_occursIn hl))

/-- A review-request record created with an empty source branch. -/
def jiraEmptyBranchReview : JiraRaw :=
  { key := str "K-1",
    fields :=
      { summary := str "review"
        description := some (reviewDescription (str "") (str "") (str "main") none)
        statusName := str "Open"
        created := str "c"
        updated := str "u"
        reporter := ⟨str "r", str "Rae"⟩
        assignee := none
        issuetypeName := str "Review" } }

/-- C2 counterexample: a review request created with sourceBranch equal to
the empty string reads back as the sentinel `"unknown"`, not as the created
value — the label line `Source Branch: ` with an empty value never matches
the `(.+)` capture — so the claimed byte-for-byte round trip fails. -/
theorem C2_branch_roundtrip_counterexample :
    (JiraClient.normalizeTicket jiraEmptyBranchReview).sourceBranch?
        = some (str "unknown") ∧
    some (str "unknown") ≠ some (str "") := by
  exact ⟨by decide, by decide⟩

/-- C2 amended: `createReviewRequest` on the Jira and ServiceNow adapters
always emits the two label lines, and a subsequent read recovers both branch
values byte-for-byte, provided the branch values are nonempty and
newline-free, the user description contains no label text of its own, and the
source-branch value does not itself contain the target label; a description
containing no label text reads back as `"unknown"` for both fields. -/
theorem C2_branch_roundtrip_amended
    (description sourceBranch targetBranch : Str) (reviewers : Option (List Str))
    (hs : sourceBranch ≠ []) (hsn : '\n' ∉ sourceBranch)
    (ht : targetBranch ≠ []) (htn : '\n' ∉ targetBranch)
    (hd1 : ¬ occursIn (str "Source Branch: ") description)
    (hd2 : ¬ occursIn (str "Target Branch: ") description)
    (hst : ¬ occursIn (str "Target Branch: ") sourceBranch) :
    (str "Source Branch: " ++ sourceBranch)
        ∈ splitLines (reviewDescription description sourceBranch targetBranch reviewers) ∧
    (str "Target Branch: " ++ targetBranch)
        ∈ splitLines (reviewDescription description sourceBranch targetBranch reviewers) ∧
    (∀ t : JiraRaw, t.fields.issuetypeName = str "Review" →
      t.fields.description
          = some (reviewDescription description sourceBranch targetBranch reviewers) →
      (JiraClient.normalizeTicket t).sourceBranch? = some sourceBranch ∧
      (JiraClient.normalizeTicket t).targetBranch? = some targetBranch) ∧
    (∀ t : SNRaw, t.sys_class_name = str "change_request" →
      t.category = some (str "Code Review") →
      t.description
          = some (reviewDescription description sourceBranch targetBranch reviewers) →
      (ServiceNowClient.normalizeTicket t).sourceBranch? = some sourceBranch ∧
      (ServiceNowClient.normalizeTicket t).targetBranch? = some targetBranch) ∧
    (∀ (t : JiraRaw) (d : Str), t.fields.issuetypeName = str "Review" →
      t.fields.description = some d →
      ¬ occursIn (str "Source Branch: ") d → ¬ occursIn (str "Target Branch: ") d →
      (JiraClient.normalizeTicket t).sourceBranch? = some (str "unknown") ∧
      (JiraClient.normalizeTicket t).targetBranch? = some (str "unknown")) := by
  have hsrc := matchLabel_reviewDescription_src description sourceBranch targetBranch
    reviewers hs hsn htn hd1
  have htgt := matchLabel_reviewDescription_tgt description sourceBranch targetBranch
    reviewers ht hsn htn hd2 hst
  obtain ⟨pre, rest, hsplit, -⟩ :=
    reviewDescription_lines description sourceBranch targetBranch reviewers hsn htn
  refine ⟨?_, ?_, ?_, ?_, ?_⟩
  · rw [hsplit]
    exact List.mem_append_right _ (List.mem_cons_self _ _)
  · rw [hsplit]
    exact List.mem_append_right _ (List.mem_cons_of_mem _ (List.mem_cons_self _ _))
  · intro t htype hdesc
    constructor
    · simp only [JiraClient.normalizeTicket, hdesc, htype, Option.getD_some, if_pos rfl,
        StandardTicket.sourceBranch?, hsrc]
      rfl
    · simp only [JiraClient.normalizeTicket, hdesc, htype, Option.getD_some, if_pos rfl,
        StandardTicket.targetBranch?, htgt]
      rfl
  · intro t hclass hcat hdesc
    constructor
    · simp only [ServiceNowClient.normalizeTicket, hdesc, hclass, hcat, Option.getD_some,
        StandardTicket.sourceBranch?, hsrc]
      rfl
    · simp only [ServiceNowClient.normalizeTicket, hdesc, hclass, hcat, Option.getD_some,
        StandardTicket.targetBranch?, htgt]
      rfl
  · intro t d htype hdesc hnd1 hnd2
    have hms := matchLabel_none_of_no_label (by decide) hnd1
    have hmt := matchLabel_none_of_no_label (by decide) hnd2
    constructor
    · simp only [JiraClient.normalizeTicket, hdesc, htype, Option.getD_some, if_pos rfl,
        StandardTicket.sourceBranch?, hms]
      rfl
    · simp only [JiraClient.normalizeTicket, hdesc, htype, Option.getD_some, if_pos rfl,
        StandardTicket.targetBranch?, hmt]
      rfl

/-- C2 witness: the round trip at concrete inputs. -/
theorem C2_witness :
    matchLabel (str "Source Branch: ")
        (reviewDescription (str "hello") (str "feat/x") (str "main") none)
      = some (str "feat/x") ∧
    matchLabel (str "Target Branch: ")
        (reviewDescription (str "hello") (str "feat/x") (str "main") none)
      = some (str "main") := by
  obtain ⟨-, -, hjira, -, -⟩ := C2_branch_roundtrip_amended (str "hello") (str "feat/x")
    (str "main") none (by decide) (by decide) (by decide) (by decide)
    (not_occursIn_of_hasSub_false (by decide) (by decide))
    (not_occursIn_of_hasSub_false (by decide) (by decide))
    (not_occursIn_of_hasSub_false (by decide) (by decide))
  have h := hjira
    { key := str "K-2",
      fields :=
        { summary := str "review"
          description := some (reviewDescription (str "hello") (str "feat/x")
            (str "main") none)
          statusName := str "Open"
          created := str "c"
          updated := str "u"
          reporter := ⟨str "r", str "Rae"⟩
          assignee := none
          issuetypeName := str "Review" } } rfl rfl
  constructor
  · have hsb := h.1
    revert hsb
    decide
  · have htb := h.2
    revert htb
    decide

end BacklogRelay
